import Mathlib

set_option maxRecDepth 8000

/-!
Verification of the heatmap GeoJSON streaming service (`src/main.py`).

The embedding models the query pipeline of `get_geojson_by_bounds`,
the startup loader `load_geojson_parts`, and the summary endpoint
`get_info`.  Coordinates are rationals (the source works with Python
floats; none of the verified properties depend on rounding).  Geometries
are modelled as point features: the source delegates the geometric
predicate to shapely's `intersects`, and for a point `p` and the polygon
built by `shapely.geometry.box(west, south, east, north)` that predicate
is exactly "p lies in the closed rectangle spanned by the two corners".
Note that `shapely.geometry.box(minx, miny, maxx, maxy)` builds the ring
`[(maxx, miny), (maxx, maxy), (minx, maxy), (minx, miny)]`, whose point
set is the rectangle between the corners even when the arguments are
inverted (miny > maxy); this is captured by taking min/max below.
-/

namespace Heatmap

/-- One geometry+attribute record; the geometry is a point. -/
structure Feature where
  x : ℚ
  y : ℚ
deriving DecidableEq, Repr

/-- A loaded partition, as geopandas represents it: an ordered sequence of
features, a declared coordinate reference system, and the frame's column
names. -/
structure GeoDataFrame where
  features : List Feature
  crs : String
  columns : List String
deriving DecidableEq, Repr

/-- The closed rectangle described by a shapely box polygon. -/
structure Rect where
  minX : ℚ
  minY : ℚ
  maxX : ℚ
  maxY : ℚ
deriving DecidableEq, Repr

/-- `shapely.geometry.box(west, south, east, north)` (source line 58):
the resulting polygon's point set is the rectangle spanned by the two
corners, independent of argument order. -/
def mkBox (west south east north : ℚ) : Rect :=
  { minX := min west east, minY := min south north,
    maxX := max west east, maxY := max south north }

/-- `gdf.geometry.intersects(bbox)` for a point feature: closed
containment in the rectangle (shapely's `intersects` includes the
boundary). -/
def featIntersects (f : Feature) (r : Rect) : Bool :=
  decide (r.minX ≤ f.x) && decide (f.x ≤ r.maxX) &&
  decide (r.minY ≤ f.y) && decide (f.y ≤ r.maxY)

/-- Python's `l[::k]` for `k ≥ 1` (pandas `iloc[::k]`, source lines
72/74): the elements whose positional index is a multiple of `k`, in
order. -/
def stride {α : Type} (l : List α) (k : Nat) : List α :=
  (l.enum.filter (fun p => p.1 % k == 0)).map Prod.snd

/-- Zoom-based sampling, source lines 71-74: stride `max 1 (len/100)`
below zoom 10, stride `max 1 (len/500)` below zoom 13, identity from
zoom 13 on.  (`//` is Python floor division = `Nat./`.) -/
def decimate (zoom : Int) (l : List Feature) : List Feature :=
  if zoom < 10 then stride l (max 1 (l.length / 100))
  else if zoom < 13 then stride l (max 1 (l.length / 500))
  else l

/-- Source line 69 + 71-74: intersection filter against the bbox, then
zoom-based decimation of the filtered frame; crs and columns carry over. -/
def filterAndDecimate (bbox : Rect) (zoom : Int) (gdf : GeoDataFrame) : GeoDataFrame :=
  { gdf with features := decimate zoom (gdf.features.filter (fun f => featIntersects f bbox)) }

/-- One iteration of the loop in source lines 64-76: a partition is
skipped when it is absent (`None`) or empty; otherwise its
filtered-and-decimated frame is produced (even when the filter left no
rows). -/
def processPart (bbox : Rect) (zoom : Int) (og : Option GeoDataFrame) :
    Option GeoDataFrame :=
  match og with
  | none => none
  | some gdf =>
    if gdf.features.isEmpty then none
    else some (filterAndDecimate bbox zoom gdf)

/-- The `filtered_parts` list built by the loop in source lines 64-76,
in ascending partition-index order. -/
def queryFilteredParts (store : List (Option GeoDataFrame))
    (north south east west : ℚ) (zoom : Int) : List GeoDataFrame :=
  store.filterMap (processPart (mkBox west south east north) zoom)

/-- The JSON body returned by `/api/geojson` (source lines 86-96),
together with the crs that line 79 assigns to the combined frame
(`crs=filtered_parts[0].crs`; `none` models the empty branch where no
combined frame is built). -/
structure QueryResult where
  features : List Feature
  count : Nat
  crs : Option String
  north : ℚ
  south : ℚ
  east : ℚ
  west : ℚ
deriving DecidableEq, Repr

/-- `get_geojson_by_bounds` (source lines 47-96): per-partition filter
and decimation, then `pd.concat` of the collected frames in partition
order with the first collected frame's crs, or the empty feature
collection when nothing was collected. -/
def get_geojson_by_bounds (store : List (Option GeoDataFrame))
    (north south east west : ℚ) (zoom : Int) : QueryResult :=
  match queryFilteredParts store north south east west zoom with
  | [] =>
    { features := [], count := 0, crs := none,
      north := north, south := south, east := east, west := west }
  | first :: rest =>
    { features := ((first :: rest).map GeoDataFrame.features).flatten,
      count := (((first :: rest).map GeoDataFrame.features).flatten).length,
      crs := some first.crs,
      north := north, south := south, east := east, west := west }

/-- `load_geojson_parts` (source lines 30-40): each partition's read
either succeeds (`gdf` stored) or throws (partition stored as `None`);
the loop always continues to the next partition. -/
def load_geojson_parts (results : List (Except String GeoDataFrame)) :
    List (Option GeoDataFrame) :=
  results.map Except.toOption

/-- The test `g is not None and not g.empty` of source line 110. -/
def keepLoaded (og : Option GeoDataFrame) : Option GeoDataFrame :=
  match og with
  | none => none
  | some g => if g.features.isEmpty then none else some g

/-- The list `gdfs = [g for g in geojson_parts.values() if g is not None
and not g.empty]` of source line 110. -/
def loadedParts (store : List (Option GeoDataFrame)) : List GeoDataFrame :=
  store.filterMap keepLoaded

/-- `combined.total_bounds` (source line 116) for point features:
`(minx, miny, maxx, maxy)` over all coordinates; `none` models the
undefined (NaN) bounds of an empty frame, which the code never reaches. -/
def total_bounds (l : List Feature) : Option (ℚ × ℚ × ℚ × ℚ) :=
  match l with
  | [] => none
  | f :: fs =>
    some (fs.foldl
      (fun b g => (min b.1 g.x, min b.2.1 g.y, max b.2.2.1 g.x, max b.2.2.2 g.y))
      (f.x, f.y, f.x, f.y))

/-- The column index of `pd.concat` over frames with possibly different
columns: the union of the frames' column lists, keeping first
appearances. -/
def unionColumns (ls : List (List String)) : List String :=
  ls.foldl (fun acc cols => acc ++ cols.filter (fun c => decide (¬ c ∈ acc))) []

/-- The JSON body returned by `/api/info` (source lines 101-127): either
the `\x7b"status": "No data loaded"\x7d` sentinel or the numeric summary. -/
inductive InfoResult where
  | noData : InfoResult
  | info (total_features : Nat) (bounds : Option (ℚ × ℚ × ℚ × ℚ))
      (columns : List String) : InfoResult
deriving DecidableEq, Repr

/-- `get_info` (source lines 101-127): sentinel when no loaded non-empty
partition exists; otherwise count, total bounds and columns of the
concatenation of the loaded non-empty partitions. -/
def get_info (store : List (Option GeoDataFrame)) : InfoResult :=
  match loadedParts store with
  | [] => InfoResult.noData
  | g :: gs =>
    InfoResult.info ((((g :: gs).map GeoDataFrame.features).flatten).length)
      (total_bounds (((g :: gs).map GeoDataFrame.features).flatten))
      (unionColumns ((g :: gs).map GeoDataFrame.columns))

/-- The spec's reading of stride sampling: "takes elements at positions
0, k, 2k, …" of the input, in the original order. -/
def strideSpec {α : Type} (l : List α) (k : Nat) : List α :=
  (List.range l.length).filterMap (fun j => l.get? (j * k))

/-- Ceiling division, for the spec's `ceil(n / k)` bounds. -/
def ceilDiv (n k : Nat) : Nat := (n + k - 1) / k

section StrideLemmas

variable {α : Type}

lemma enumFrom_filter_shift (k : Nat) (l : List α) :
    ∀ s : Nat, ((List.enumFrom (s + k) l).filter (fun p => p.1 % k == 0)).map Prod.snd
      = ((List.enumFrom s l).filter (fun p => p.1 % k == 0)).map Prod.snd := by
  induction l with
  | nil => intro s; rfl
  | cons a t ih =>
    intro s
    have h1 : s + k + 1 = (s + 1) + k := by omega
    by_cases h : s % k = 0
    · simp [List.enumFrom_cons, List.filter_cons, Nat.add_mod_right, h, h1, ih (s + 1)]
    · simp [List.enumFrom_cons, List.filter_cons, Nat.add_mod_right, h, h1, ih (s + 1)]

lemma enumFrom_filter_stride (k : Nat) (_hk : 1 ≤ k) (l : List α) :
    ∀ s : Nat, 1 ≤ s → s ≤ k →
      ((List.enumFrom s l).filter (fun p => p.1 % k == 0)).map Prod.snd
        = stride (l.drop (k - s)) k := by
  induction l with
  | nil => intro s h1 h2; simp [stride]
  | cons b t ih =>
    intro s hs1 hsk
    by_cases hcase : s = k
    · have hmod : s % k = 0 := by rw [hcase]; exact Nat.mod_self k
      have hks : k - s = 0 := by omega
      rw [hks, List.drop_zero]
      show ((List.enumFrom s (b :: t)).filter (fun p => p.1 % k == 0)).map Prod.snd
        = ((List.enum (b :: t)).filter (fun p => p.1 % k == 0)).map Prod.snd
      rw [List.enumFrom_cons, List.enum_cons, List.filter_cons, List.filter_cons]
      simp only [hmod, Nat.zero_mod, beq_self_eq_true, if_pos, List.map_cons]
      have h1 : s + 1 = 1 + k := by omega
      rw [h1, enumFrom_filter_shift k t 1]
    · have hslt : s < k := lt_of_le_of_ne hsk hcase
      have hmod : s % k = s := Nat.mod_eq_of_lt hslt
      have hcond : ((s % k == 0) : Bool) = false := by
        rw [hmod]
        simp only [beq_eq_false_iff_ne, ne_eq]
        omega
      rw [List.enumFrom_cons, List.filter_cons]
      simp only [hcond, Bool.false_eq_true, if_false]
      rw [ih (s + 1) (by omega) (by omega)]
      have h2 : k - s = (k - (s + 1)) + 1 := by omega
      rw [h2, List.drop_succ_cons]

lemma stride_nil (k : Nat) : stride ([] : List α) k = [] := rfl

lemma stride_cons (k : Nat) (hk : 1 ≤ k) (a : α) (t : List α) :
    stride (a :: t) k = a :: stride (t.drop (k - 1)) k := by
  show ((List.enum (a :: t)).filter (fun p => p.1 % k == 0)).map Prod.snd = _
  rw [List.enum_cons, List.filter_cons]
  simp only [Nat.zero_mod, beq_self_eq_true, if_pos, List.map_cons]
  rw [enumFrom_filter_stride k hk t 1 (le_refl 1) hk]

lemma stride_length_aux (k : Nat) (hk : 1 ≤ k) :
    ∀ (n : Nat) (l : List α), l.length ≤ n →
      (stride l k).length = (l.length + k - 1) / k := by
  intro n
  induction n with
  | zero =>
    intro l hl
    have hnil : l = [] := List.eq_nil_of_length_eq_zero (Nat.le_zero.mp hl)
    subst hnil
    simp only [stride_nil, List.length_nil]
    rw [Nat.div_eq_of_lt (by omega)]
  | succ m ih =>
    intro l hl
    cases l with
    | nil =>
      simp only [stride_nil, List.length_nil]
      rw [Nat.div_eq_of_lt (by omega)]
    | cons a t =>
      rw [stride_cons k hk, List.length_cons, List.length_cons]
      have hlen : (t.drop (k - 1)).length ≤ m := by
        rw [List.length_drop]
        simp only [List.length_cons] at hl
        omega
      rw [ih (t.drop (k - 1)) hlen, List.length_drop]
      have hrhs : (t.length + 1 + k - 1) / k = t.length / k + 1 := by
        have h3 : t.length + 1 + k - 1 = t.length + k := by omega
        rw [h3, Nat.add_div_right _ hk]
      rw [hrhs]
      rcases le_or_lt (k - 1) t.length with hge | hlt
      · have h3 : t.length - (k - 1) + k - 1 = t.length := by omega
        rw [h3]
      · have h3 : t.length - (k - 1) + k - 1 = k - 1 := by omega
        rw [h3, Nat.div_eq_of_lt (by omega), Nat.div_eq_of_lt (by omega)]

lemma stride_length (k : Nat) (hk : 1 ≤ k) (l : List α) :
    (stride l k).length = ceilDiv l.length k :=
  stride_length_aux k hk l.length l (le_refl _)

lemma range_filterMap_drop {β : Type} (f : Nat → Option β) :
    ∀ n m : Nat, m ≤ n → (∀ j, m ≤ j → f j = none) →
      (List.range n).filterMap f = (List.range m).filterMap f := by
  intro n
  induction n with
  | zero =>
    intro m hm _
    have : m = 0 := by omega
    subst this
    rfl
  | succ p ih =>
    intro m hm hnone
    by_cases hmp : m = p + 1
    · subst hmp; rfl
    · have hm2 : m ≤ p := by omega
      rw [List.range_succ, List.filterMap_append, ih m hm2 hnone]
      simp [hnone p (by omega)]

lemma strideSpec_nil (k : Nat) : strideSpec ([] : List α) k = [] := rfl

lemma strideSpec_cons (k : Nat) (hk : 1 ≤ k) (a : α) (t : List α) :
    strideSpec (a :: t) k = a :: strideSpec (t.drop (k - 1)) k := by
  show (List.range (a :: t).length).filterMap (fun j => (a :: t).get? (j * k))
    = a :: (List.range (t.drop (k - 1)).length).filterMap (fun j => (t.drop (k - 1)).get? (j * k))
  rw [List.length_cons, List.range_succ_eq_map, List.filterMap_cons]
  simp only [Nat.zero_mul, List.get?_cons_zero, List.filterMap_map]
  congr 1
  have hfun : ∀ j ∈ List.range t.length,
      ((fun j => (a :: t).get? (j * k)) ∘ Nat.succ) j = (t.drop (k - 1)).get? (j * k) := by
    intro j _
    simp only [Function.comp_apply]
    rw [List.get?_eq_getElem?, List.get?_eq_getElem?, List.getElem?_drop]
    have h1 : Nat.succ j * k = ((k - 1) + j * k) + 1 := by
      have h2 := Nat.succ_mul j k
      omega
    rw [h1, List.getElem?_cons_succ]
  rw [List.filterMap_congr hfun]
  apply range_filterMap_drop _ t.length (t.drop (k - 1)).length ?_ ?_
  · rw [List.length_drop]; omega
  · intro j hj
    rw [List.get?_eq_none]
    calc (t.drop (k - 1)).length ≤ j := hj
      _ ≤ j * k := Nat.le_mul_of_pos_right j hk

lemma stride_eq_strideSpec_aux (k : Nat) (hk : 1 ≤ k) :
    ∀ (n : Nat) (l : List α), l.length ≤ n → stride l k = strideSpec l k := by
  intro n
  induction n with
  | zero =>
    intro l hl
    have hnil : l = [] := List.eq_nil_of_length_eq_zero (Nat.le_zero.mp hl)
    subst hnil
    rfl
  | succ m ih =>
    intro l hl
    cases l with
    | nil => rfl
    | cons a t =>
      rw [stride_cons k hk, strideSpec_cons k hk]
      have hlen : (t.drop (k - 1)).length ≤ m := by
        rw [List.length_drop]
        simp only [List.length_cons] at hl
        omega
      rw [ih (t.drop (k - 1)) hlen]

lemma stride_eq_strideSpec (k : Nat) (hk : 1 ≤ k) (l : List α) :
    stride l k = strideSpec l k :=
  stride_eq_strideSpec_aux k hk l.length l (le_refl _)

lemma stride_one (l : List α) : stride l 1 = l := by
  induction l with
  | nil => rfl
  | cons a t ih =>
    rw [stride_cons 1 (le_refl 1), Nat.sub_self, List.drop_zero, ih]

end StrideLemmas

lemma decimate_nil (zoom : Int) : decimate zoom [] = [] := by
  unfold decimate
  split
  · rfl
  · split
    · rfl
    · rfl

lemma decimate_high (zoom : Int) (hz : 13 ≤ zoom) (l : List Feature) :
    decimate zoom l = l := by
  unfold decimate
  rw [if_neg (by omega), if_neg (by omega)]

@[simp] lemma processPart_none (bbox : Rect) (zoom : Int) :
    processPart bbox zoom none = none := rfl

@[simp] lemma processPart_some (bbox : Rect) (zoom : Int) (g : GeoDataFrame) :
    processPart bbox zoom (some g)
      = if g.features.isEmpty then none
        else some (filterAndDecimate bbox zoom g) := rfl

lemma query_features_eq (store : List (Option GeoDataFrame))
    (north south east west : ℚ) (zoom : Int) :
    (get_geojson_by_bounds store north south east west zoom).features
      = ((queryFilteredParts store north south east west zoom).map
          GeoDataFrame.features).flatten := by
  rcases h : queryFilteredParts store north south east west zoom with _ | ⟨f, r⟩ <;>
    simp [get_geojson_by_bounds, h]

lemma query_count_eq (store : List (Option GeoDataFrame))
    (north south east west : ℚ) (zoom : Int) :
    (get_geojson_by_bounds store north south east west zoom).count
      = (((queryFilteredParts store north south east west zoom).map
          GeoDataFrame.features).flatten).length := by
  rcases h : queryFilteredParts store north south east west zoom with _ | ⟨f, r⟩ <;>
    simp [get_geojson_by_bounds, h]

lemma query_crs_eq (store : List (Option GeoDataFrame))
    (north south east west : ℚ) (zoom : Int) :
    (get_geojson_by_bounds store north south east west zoom).crs
      = (queryFilteredParts store north south east west zoom).head?.map
          GeoDataFrame.crs := by
  rcases h : queryFilteredParts store north south east west zoom with _ | ⟨f, r⟩ <;>
    simp [get_geojson_by_bounds, h]

lemma query_echo (store : List (Option GeoDataFrame))
    (north south east west : ℚ) (zoom : Int) :
    (get_geojson_by_bounds store north south east west zoom).north = north
    ∧ (get_geojson_by_bounds store north south east west zoom).south = south
    ∧ (get_geojson_by_bounds store north south east west zoom).east = east
    ∧ (get_geojson_by_bounds store north south east west zoom).west = west := by
  rcases h : queryFilteredParts store north south east west zoom with _ | ⟨f, r⟩ <;>
    simp [get_geojson_by_bounds, h]

@[simp] lemma keepLoaded_none : keepLoaded none = none := rfl

@[simp] lemma keepLoaded_some (g : GeoDataFrame) :
    keepLoaded (some g) = if g.features.isEmpty then none else some g := rfl

lemma filterAndDecimate_features (bbox : Rect) (zoom : Int) (g : GeoDataFrame) :
    (filterAndDecimate bbox zoom g).features
      = decimate zoom (g.features.filter (fun f => featIntersects f bbox)) := rfl

lemma filterAndDecimate_crs (bbox : Rect) (zoom : Int) (g : GeoDataFrame) :
    (filterAndDecimate bbox zoom g).crs = g.crs := rfl

lemma query_flatten_of_cover (north south east west : ℚ) (zoom : Int) (hz : 13 ≤ zoom) :
    ∀ store : List (Option GeoDataFrame),
      (∀ g ∈ store.filterMap id, ∀ f ∈ g.features,
          featIntersects f (mkBox west south east north) = true) →
      ((queryFilteredParts store north south east west zoom).map
          GeoDataFrame.features).flatten
        = ((store.filterMap id).map GeoDataFrame.features).flatten := by
  intro store
  induction store with
  | nil => intro _; rfl
  | cons og rest ih =>
    intro hcov
    cases og with
    | none =>
      have hrest : ∀ g ∈ rest.filterMap id, ∀ f ∈ g.features,
          featIntersects f (mkBox west south east north) = true := by
        intro g hg
        exact hcov g (by simpa [List.filterMap_cons] using hg)
      simpa [queryFilteredParts, List.filterMap_cons] using ih hrest
    | some g =>
      have hg : ∀ f ∈ g.features, featIntersects f (mkBox west south east north) = true :=
        hcov g (by simp [List.filterMap_cons])
      have hrest : ∀ g2 ∈ rest.filterMap id, ∀ f ∈ g2.features,
          featIntersects f (mkBox west south east north) = true := by
        intro g2 hg2
        exact hcov g2 (by simp [List.filterMap_cons, hg2])
      by_cases hemp : g.features.isEmpty
      · have hnil : g.features = [] := List.isEmpty_iff.mp hemp
        have hq : queryFilteredParts (some g :: rest) north south east west zoom
            = queryFilteredParts rest north south east west zoom := by
          simp [queryFilteredParts, List.filterMap_cons, hemp]
        rw [hq, ih hrest]
        simp [List.filterMap_cons, hnil]
      · have hfd : (filterAndDecimate (mkBox west south east north) zoom g).features
            = g.features := by
          rw [filterAndDecimate_features, List.filter_eq_self.mpr hg,
            decimate_high zoom hz]
        have hq : queryFilteredParts (some g :: rest) north south east west zoom
            = filterAndDecimate (mkBox west south east north) zoom g
                :: queryFilteredParts rest north south east west zoom := by
          simp [queryFilteredParts, List.filterMap_cons, hemp]
        rw [hq]
        simp only [List.map_cons, List.flatten_cons, hfd, ih hrest,
          List.filterMap_cons, id_eq]

lemma query_flatten_of_disjoint (north south east west : ℚ) (zoom : Int) :
    ∀ store : List (Option GeoDataFrame),
      (∀ g ∈ store.filterMap id, ∀ f ∈ g.features,
          featIntersects f (mkBox west south east north) = false) →
      ((queryFilteredParts store north south east west zoom).map
          GeoDataFrame.features).flatten = [] := by
  intro store
  induction store with
  | nil => intro _; rfl
  | cons og rest ih =>
    intro hdis
    cases og with
    | none =>
      have hrest : ∀ g ∈ rest.filterMap id, ∀ f ∈ g.features,
          featIntersects f (mkBox west south east north) = false := by
        intro g hg
        exact hdis g (by simpa [List.filterMap_cons] using hg)
      simpa [queryFilteredParts, List.filterMap_cons] using ih hrest
    | some g =>
      have hg : ∀ f ∈ g.features, featIntersects f (mkBox west south east north) = false :=
        hdis g (by simp [List.filterMap_cons])
      have hrest : ∀ g2 ∈ rest.filterMap id, ∀ f ∈ g2.features,
          featIntersects f (mkBox west south east north) = false := by
        intro g2 hg2
        exact hdis g2 (by simp [List.filterMap_cons, hg2])
      by_cases hemp : g.features.isEmpty
      · have hq : queryFilteredParts (some g :: rest) north south east west zoom
            = queryFilteredParts rest north south east west zoom := by
          simp [queryFilteredParts, List.filterMap_cons, hemp]
        rw [hq, ih hrest]
      · have hfil : g.features.filter
            (fun f => featIntersects f (mkBox west south east north)) = [] := by
          rw [List.filter_eq_nil_iff]
          intro f hf
          simp [hg f hf]
        have hfd : (filterAndDecimate (mkBox west south east north) zoom g).features
            = [] := by
          rw [filterAndDecimate_features, hfil, decimate_nil]
        have hq : queryFilteredParts (some g :: rest) north south east west zoom
            = filterAndDecimate (mkBox west south east north) zoom g
                :: queryFilteredParts rest north south east west zoom := by
          simp [queryFilteredParts, List.filterMap_cons, hemp]
        rw [hq]
        simp only [List.map_cons, List.flatten_cons, hfd, ih hrest, List.nil_append]

lemma filterMap_eraseIdx {β γ : Type} (f : β → Option γ) :
    ∀ (l : List β) (i : Nat) (a : β), l.get? i = some a → f a = none →
      (l.eraseIdx i).filterMap f = l.filterMap f := by
  intro l
  induction l with
  | nil => intro i a h _; simp at h
  | cons x xs ih =>
    intro i a h hfa
    cases i with
    | zero =>
      rw [List.get?_cons_zero] at h
      injection h with h
      subst h
      simp [List.eraseIdx_cons_zero, List.filterMap_cons, hfa]
    | succ j =>
      rw [List.get?_cons_succ] at h
      rw [List.eraseIdx_cons_succ, List.filterMap_cons, List.filterMap_cons]
      cases hfx : f x <;> simp [ih j a h hfa]

lemma query_skip_absent (store : List (Option GeoDataFrame)) (i : Nat)
    (h : store.get? i = some none) (north south east west : ℚ) (zoom : Int) :
    get_geojson_by_bounds store north south east west zoom
      = get_geojson_by_bounds (store.eraseIdx i) north south east west zoom := by
  have hq : queryFilteredParts (store.eraseIdx i) north south east west zoom
      = queryFilteredParts store north south east west zoom :=
    filterMap_eraseIdx _ store i none h rfl
  unfold get_geojson_by_bounds
  rw [hq]

lemma loadedParts_flatten (store : List (Option GeoDataFrame)) :
    ((loadedParts store).map GeoDataFrame.features).flatten
      = ((store.filterMap id).map GeoDataFrame.features).flatten := by
  induction store with
  | nil => rfl
  | cons og rest ih =>
    cases og with
    | none => simpa [loadedParts, List.filterMap_cons] using ih
    | some g =>
      by_cases hemp : g.features.isEmpty
      · have hnil : g.features = [] := List.isEmpty_iff.mp hemp
        have hl : loadedParts (some g :: rest) = loadedParts rest := by
          simp [loadedParts, List.filterMap_cons, hemp]
        rw [hl, ih]
        simp [List.filterMap_cons, hnil]
      · have hl : loadedParts (some g :: rest) = g :: loadedParts rest := by
          simp [loadedParts, List.filterMap_cons, hemp]
        rw [hl]
        simp only [List.map_cons, List.flatten_cons, ih, List.filterMap_cons, id_eq]

lemma loadedParts_count (store : List (Option GeoDataFrame)) :
    (((loadedParts store).map GeoDataFrame.features).flatten).length
      = ((store.filterMap id).map (fun g => g.features.length)).sum := by
  rw [loadedParts_flatten, List.length_flatten, List.map_map]
  rfl

lemma mem_loadedParts_nonempty (store : List (Option GeoDataFrame)) :
    ∀ g ∈ loadedParts store, g.features ≠ [] := by
  intro g hg
  rcases List.mem_filterMap.mp hg with ⟨og, _, hkeep⟩
  cases og with
  | none => simp at hkeep
  | some g2 =>
    by_cases hemp : g2.features.isEmpty
    · simp [hemp] at hkeep
    · rw [keepLoaded_some, if_neg hemp] at hkeep
      injection hkeep with hkeep
      subst hkeep
      exact fun hnil => hemp (by simp [hnil])

section FoldMinMax

variable {β : Type}

lemma foldl_minf_le_init (f : β → ℚ) (l : List β) (a : ℚ) :
    l.foldl (fun m g => min m (f g)) a ≤ a := by
  induction l generalizing a with
  | nil => exact le_refl a
  | cons x t ih => exact le_trans (ih (min a (f x))) (min_le_left a (f x))

lemma foldl_minf_le_mem (f : β → ℚ) (l : List β) (a : ℚ) :
    ∀ x ∈ l, l.foldl (fun m g => min m (f g)) a ≤ f x := by
  induction l generalizing a with
  | nil => intro x hx; simp at hx
  | cons y t ih =>
    intro x hx
    rcases List.mem_cons.mp hx with rfl | hx2
    · exact le_trans (foldl_minf_le_init f t (min a (f x))) (min_le_right a (f x))
    · exact ih (min a (f y)) x hx2

lemma foldl_minf_choice (f : β → ℚ) (l : List β) (a : ℚ) :
    l.foldl (fun m g => min m (f g)) a = a
      ∨ ∃ x ∈ l, l.foldl (fun m g => min m (f g)) a = f x := by
  induction l generalizing a with
  | nil => left; rfl
  | cons y t ih =>
    rcases ih (min a (f y)) with h | ⟨x, hx, h⟩
    · rcases min_choice a (f y) with h2 | h2
      · left; rw [List.foldl_cons, h, h2]
      · right
        exact ⟨y, List.mem_cons_self y t, by rw [List.foldl_cons, h, h2]⟩
    · right; exact ⟨x, List.mem_cons_of_mem y hx, by rw [List.foldl_cons, h]⟩

lemma foldl_maxf_init_le (f : β → ℚ) (l : List β) (a : ℚ) :
    a ≤ l.foldl (fun m g => max m (f g)) a := by
  induction l generalizing a with
  | nil => exact le_refl a
  | cons x t ih => exact le_trans (le_max_left a (f x)) (ih (max a (f x)))

lemma foldl_maxf_mem_le (f : β → ℚ) (l : List β) (a : ℚ) :
    ∀ x ∈ l, f x ≤ l.foldl (fun m g => max m (f g)) a := by
  induction l generalizing a with
  | nil => intro x hx; simp at hx
  | cons y t ih =>
    intro x hx
    rcases List.mem_cons.mp hx with rfl | hx2
    · exact le_trans (le_max_right a (f x)) (foldl_maxf_init_le f t (max a (f x)))
    · exact ih (max a (f y)) x hx2

lemma foldl_maxf_choice (f : β → ℚ) (l : List β) (a : ℚ) :
    l.foldl (fun m g => max m (f g)) a = a
      ∨ ∃ x ∈ l, l.foldl (fun m g => max m (f g)) a = f x := by
  induction l generalizing a with
  | nil => left; rfl
  | cons y t ih =>
    rcases ih (max a (f y)) with h | ⟨x, hx, h⟩
    · rcases max_choice a (f y) with h2 | h2
      · left; rw [List.foldl_cons, h, h2]
      · right
        exact ⟨y, List.mem_cons_self y t, by rw [List.foldl_cons, h, h2]⟩
    · right; exact ⟨x, List.mem_cons_of_mem y hx, by rw [List.foldl_cons, h]⟩

end FoldMinMax

lemma fold_bounds_split (fs : List Feature) :
    ∀ b : ℚ × ℚ × ℚ × ℚ,
      fs.foldl
          (fun b g => (min b.1 g.x, min b.2.1 g.y, max b.2.2.1 g.x, max b.2.2.2 g.y)) b
        = (fs.foldl (fun m g => min m g.x) b.1,
           fs.foldl (fun m g => min m g.y) b.2.1,
           fs.foldl (fun m g => max m g.x) b.2.2.1,
           fs.foldl (fun m g => max m g.y) b.2.2.2) := by
  induction fs with
  | nil => intro b; rfl
  | cons g t ih => intro b; simp only [List.foldl_cons]; rw [ih]

/-- The spec's description of the union bounding extent: each coordinate
bound is a lower/upper bound on every feature's extent and is attained
by some feature. -/
def minMaxSpec (b : ℚ × ℚ × ℚ × ℚ) (fs : List Feature) : Prop :=
  (∀ f ∈ fs, b.1 ≤ f.x ∧ b.2.1 ≤ f.y ∧ f.x ≤ b.2.2.1 ∧ f.y ≤ b.2.2.2)
  ∧ (∃ f ∈ fs, f.x = b.1) ∧ (∃ f ∈ fs, f.y = b.2.1)
  ∧ (∃ f ∈ fs, f.x = b.2.2.1) ∧ (∃ f ∈ fs, f.y = b.2.2.2)

lemma total_bounds_minMax (fs : List Feature) (b : ℚ × ℚ × ℚ × ℚ)
    (h : total_bounds fs = some b) : minMaxSpec b fs := by
  cases fs with
  | nil => simp [total_bounds] at h
  | cons f t =>
    unfold total_bounds at h
    injection h with h
    rw [fold_bounds_split] at h
    subst h
    refine ⟨?_, ?_, ?_, ?_, ?_⟩
    · intro g hg
      rcases List.mem_cons.mp hg with rfl | hg2
      · exact ⟨foldl_minf_le_init Feature.x t g.x, foldl_minf_le_init Feature.y t g.y,
          foldl_maxf_init_le Feature.x t g.x, foldl_maxf_init_le Feature.y t g.y⟩
      · exact ⟨foldl_minf_le_mem Feature.x t f.x g hg2,
          foldl_minf_le_mem Feature.y t f.y g hg2,
          foldl_maxf_mem_le Feature.x t f.x g hg2,
          foldl_maxf_mem_le Feature.y t f.y g hg2⟩
    · rcases foldl_minf_choice Feature.x t f.x with h1 | ⟨g, hg, h1⟩
      · exact ⟨f, List.mem_cons_self f t, h1.symm⟩
      · exact ⟨g, List.mem_cons_of_mem f hg, h1.symm⟩
    · rcases foldl_minf_choice Feature.y t f.y with h1 | ⟨g, hg, h1⟩
      · exact ⟨f, List.mem_cons_self f t, h1.symm⟩
      · exact ⟨g, List.mem_cons_of_mem f hg, h1.symm⟩
    · rcases foldl_maxf_choice Feature.x t f.x with h1 | ⟨g, hg, h1⟩
      · exact ⟨f, List.mem_cons_self f t, h1.symm⟩
      · exact ⟨g, List.mem_cons_of_mem f hg, h1.symm⟩
    · rcases foldl_maxf_choice Feature.y t f.y with h1 | ⟨g, hg, h1⟩
      · exact ⟨f, List.mem_cons_self f t, h1.symm⟩
      · exact ⟨g, List.mem_cons_of_mem f hg, h1.symm⟩

lemma foldl_unionColumns_mem (c : String) :
    ∀ (ls : List (List String)) (acc : List String),
      (c ∈ ls.foldl (fun acc cols => acc ++ cols.filter (fun x => decide (¬ x ∈ acc))) acc
        ↔ c ∈ acc ∨ ∃ cols ∈ ls, c ∈ cols) := by
  intro ls
  induction ls with
  | nil => intro acc; simp
  | cons cols t ih =>
    intro acc
    rw [List.foldl_cons, ih]
    constructor
    · rintro (hc | ⟨cs, hcs, hc⟩)
      · rcases List.mem_append.mp hc with h1 | h1
        · exact Or.inl h1
        · exact Or.inr ⟨cols, List.mem_cons_self cols t, (List.mem_filter.mp h1).1⟩
      · exact Or.inr ⟨cs, List.mem_cons_of_mem cols hcs, hc⟩
    · rintro (hc | ⟨cs, hcs, hc⟩)
      · exact Or.inl (List.mem_append.mpr (Or.inl hc))
      · rcases List.mem_cons.mp hcs with rfl | h2
        · by_cases hacc : c ∈ acc
          · exact Or.inl (List.mem_append.mpr (Or.inl hacc))
          · exact Or.inl (List.mem_append.mpr
              (Or.inr (List.mem_filter.mpr ⟨hc, by simpa using hacc⟩)))
        · exact Or.inr ⟨cs, h2, hc⟩

lemma unionColumns_mem (c : String) (ls : List (List String)) :
    c ∈ unionColumns ls ↔ ∃ cols ∈ ls, c ∈ cols := by
  unfold unionColumns
  rw [foldl_unionColumns_mem]
  simp

lemma total_bounds_ne_none (l : List Feature) (h : l ≠ []) :
    total_bounds l ≠ none := by
  cases l with
  | nil => exact absurd rfl h
  | cons f t => simp [total_bounds]

/- Concrete inputs used by the witnesses and counterexamples below. -/

def gdfA : GeoDataFrame :=
  { features := [{ x := 0, y := 0 }, { x := 1, y := 2 }],
    crs := "EPSG:4326", columns := ["geometry", "density"] }

def gdfB : GeoDataFrame :=
  { features := [{ x := 3, y := 4 }],
    crs := "EPSG:4326", columns := ["geometry", "name"] }

def gdfMismatch : GeoDataFrame :=
  { features := [{ x := 1, y := 1 }],
    crs := "EPSG:3857", columns := ["geometry"] }

def gdfEmptyLoaded : GeoDataFrame :=
  { features := [], crs := "EPSG:4326", columns := ["geometry", "density"] }

def invStore : List (Option GeoDataFrame) :=
  [some { features := [{ x := 5, y := 15 }], crs := "EPSG:4326",
          columns := ["geometry"] }]

def mismatchStore : List (Option GeoDataFrame) := [some gdfA, some gdfMismatch]

def mixedStore : List (Option GeoDataFrame) := [some gdfA, none, some gdfB]

def emptyPartStore : List (Option GeoDataFrame) := [some gdfEmptyLoaded]

def farStore : List (Option GeoDataFrame) := [some gdfA, some gdfB]

def loadResults : List (Except String GeoDataFrame) :=
  [Except.ok gdfA, Except.error "missing file", Except.ok gdfB]

def strideList : List Feature := (List.range 250).map (fun i => { x := i, y := 0 })

/-- C1 counterexample: a bounding box with `north = 10 < 20 = south` is
NOT treated as empty by the code.  `shapely.geometry.box(0, 20, 10, 10)`
is the rectangle `[0,10] × [10,20]`, so the feature at `(5, 15)` is
returned and the count is 1, not 0. -/
theorem C1_counterexample :
    (10 : ℚ) < 20
    ∧ (get_geojson_by_bounds invStore 10 20 10 0 15).count ≠ 0 := by
  decide

/-- C1 (amended): for an inverted bounding box (north < south), `query`
behaves exactly as on the normalized box with north and south swapped —
same features, same count, same combined reference system — and never
errors; in particular the result is not in general empty. -/
theorem C1_inverted_bbox_normalizes (store : List (Option GeoDataFrame))
    (north south east west : ℚ) (zoom : Int) (_hinv : north < south) :
    (get_geojson_by_bounds store north south east west zoom).features
        = (get_geojson_by_bounds store south north east west zoom).features
    ∧ (get_geojson_by_bounds store north south east west zoom).count
        = (get_geojson_by_bounds store south north east west zoom).count
    ∧ (get_geojson_by_bounds store north south east west zoom).crs
        = (get_geojson_by_bounds store south north east west zoom).crs := by
  have hbox : mkBox west south east north = mkBox west north east south := by
    unfold mkBox
    rw [min_comm south north, max_comm south north]
  have hq : queryFilteredParts store north south east west zoom
      = queryFilteredParts store south north east west zoom := by
    unfold queryFilteredParts
    rw [hbox]
  refine ⟨?_, ?_, ?_⟩
  · rw [query_features_eq, query_features_eq, hq]
  · rw [query_count_eq, query_count_eq, hq]
  · rw [query_crs_eq, query_crs_eq, hq]

/-- C1 witness: the amended statement at the concrete inverted box. -/
theorem C1_witness :
    (10 : ℚ) < 20
    ∧ (get_geojson_by_bounds invStore 10 20 10 0 15).features
        = (get_geojson_by_bounds invStore 20 10 10 0 15).features :=
  ⟨by decide, (C1_inverted_bbox_normalizes invStore 10 20 10 0 15 (by decide)).1⟩

/-- C2: evaluation at the failing input.  Two non-empty partitions with
different declared reference systems are combined without any check:
the query succeeds, silently stamping the first partition's reference
system on the combined result (source line 79,
`crs=filtered_parts[0].crs`), instead of failing with
`CombineFailure(ReferenceSystemMismatch)`. -/
theorem C2_mismatch_not_checked :
    ("EPSG:4326" : String) ≠ "EPSG:3857"
    ∧ (get_geojson_by_bounds mismatchStore 90 (-90) 180 (-180) 15).crs
        = some "EPSG:4326"
    ∧ (get_geojson_by_bounds mismatchStore 90 (-90) 180 (-180) 15).count = 3 := by
  refine ⟨by decide, by decide, by decide⟩

/-- C3: decimation keeps exactly the elements at positions 0, k, 2k, …
of the filtered list (in original order), with k = max(1, ⌊count/100⌋)
for zoom < 10, k = max(1, ⌊count/500⌋) for 10 ≤ zoom < 13, and is the
identity for zoom ≥ 13. -/
theorem C3_decimate_stride_positions (l : List Feature) (zoom : Int) :
    (zoom < 10 → decimate zoom l = strideSpec l (max 1 (l.length / 100)))
    ∧ (10 ≤ zoom → zoom < 13 →
        decimate zoom l = strideSpec l (max 1 (l.length / 500)))
    ∧ (13 ≤ zoom → decimate zoom l = l) := by
  refine ⟨?_, ?_, ?_⟩
  · intro h
    unfold decimate
    rw [if_pos h]
    exact stride_eq_strideSpec _ (le_max_left 1 _) l
  · intro h1 h2
    unfold decimate
    rw [if_neg (by omega), if_pos h2]
    exact stride_eq_strideSpec _ (le_max_left 1 _) l
  · exact fun h => decimate_high zoom h l

/-- C3 witness: zoom 5 on a 250-feature list, stride 2. -/
theorem C3_witness :
    (5 : Int) < 10
    ∧ decimate 5 strideList = strideSpec strideList (max 1 (strideList.length / 100)) :=
  ⟨by decide, (C3_decimate_stride_positions strideList 5).1 (by decide)⟩

/-- C4: with every loaded partition sharing one reference system, a bbox
covering every loaded feature, and zoom ≥ 13, the query returns exactly
the concatenation of the loaded partitions' feature lists in ascending
partition-index order (each partition's internal order preserved), and
the count equals its length. -/
theorem C4_full_extent_concat (store : List (Option GeoDataFrame))
    (north south east west : ℚ) (zoom : Int)
    (_hcrs : ∃ c, ∀ g ∈ store.filterMap id, g.crs = c)
    (hcover : ∀ g ∈ store.filterMap id, ∀ f ∈ g.features,
        featIntersects f (mkBox west south east north) = true)
    (hzoom : 13 ≤ zoom) :
    (get_geojson_by_bounds store north south east west zoom).features
        = ((store.filterMap id).map GeoDataFrame.features).flatten
    ∧ (get_geojson_by_bounds store north south east west zoom).count
        = (((store.filterMap id).map GeoDataFrame.features).flatten).length := by
  have h := query_flatten_of_cover north south east west zoom hzoom store hcover
  exact ⟨by rw [query_features_eq, h], by rw [query_count_eq, h]⟩

/-- C4 witness: three configured partitions, the middle one absent, a
world-covering bbox and zoom 15. -/
theorem C4_witness :
    (get_geojson_by_bounds mixedStore 90 (-90) 180 (-180) 15).features
        = ((mixedStore.filterMap id).map GeoDataFrame.features).flatten
    ∧ (get_geojson_by_bounds mixedStore 90 (-90) 180 (-180) 15).count
        = (((mixedStore.filterMap id).map GeoDataFrame.features).flatten).length :=
  C4_full_extent_concat mixedStore 90 (-90) 180 (-180) 15
    ⟨"EPSG:4326", by decide⟩ (by decide) (by decide)

/-- C5: per-partition decimated length is at most
ceil(n / max(1, ⌊n/100⌋)) for zoom < 10, at most
ceil(n / max(1, ⌊n/500⌋)) for 10 ≤ zoom < 13, and exactly n for
zoom ≥ 13 (the bound is in fact attained with equality). -/
theorem C5_decimate_length_bound (l : List Feature) (zoom : Int) :
    (zoom < 10 →
      (decimate zoom l).length ≤ ceilDiv l.length (max 1 (l.length / 100)))
    ∧ (10 ≤ zoom → zoom < 13 →
      (decimate zoom l).length ≤ ceilDiv l.length (max 1 (l.length / 500)))
    ∧ (13 ≤ zoom → (decimate zoom l).length = l.length) := by
  refine ⟨?_, ?_, ?_⟩
  · intro h
    unfold decimate
    rw [if_pos h]
    exact le_of_eq (stride_length _ (le_max_left 1 _) l)
  · intro h1 h2
    unfold decimate
    rw [if_neg (by omega), if_pos h2]
    exact le_of_eq (stride_length _ (le_max_left 1 _) l)
  · intro h
    rw [decimate_high zoom h]

/-- C5 witness: zoom 5 on a 250-feature list, bound ceil(250/2) = 125. -/
theorem C5_witness :
    (5 : Int) < 10
    ∧ (decimate 5 strideList).length
        ≤ ceilDiv strideList.length (max 1 (strideList.length / 100)) :=
  ⟨by decide, (C5_decimate_length_bound strideList 5).1 (by decide)⟩

/-- C6: a load failure at partition i is recorded as absent (`None`),
other successful partitions still load, and every query on the resulting
store equals the query on the store with the absent slot removed — the
absent partition contributes zero features and no query-level failure. -/
theorem C6_load_failure_isolated (results : List (Except String GeoDataFrame))
    (i : Nat) (msg : String) (h : results.get? i = some (Except.error msg)) :
    (load_geojson_parts results).get? i = some none
    ∧ (∀ j g, results.get? j = some (Except.ok g) →
        (load_geojson_parts results).get? j = some (some g))
    ∧ (∀ (north south east west : ℚ) (zoom : Int),
        get_geojson_by_bounds (load_geojson_parts results) north south east west zoom
          = get_geojson_by_bounds ((load_geojson_parts results).eraseIdx i)
              north south east west zoom) := by
  refine ⟨?_, ?_, ?_⟩
  · unfold load_geojson_parts
    rw [List.get?_map, h]
    rfl
  · intro j g hj
    unfold load_geojson_parts
    rw [List.get?_map, hj]
    rfl
  · intro north south east west zoom
    apply query_skip_absent
    unfold load_geojson_parts
    rw [List.get?_map, h]
    rfl

/-- C6 witness: partition 2 of 3 fails to load; its slot is absent and a
world query ignores it. -/
theorem C6_witness :
    (load_geojson_parts loadResults).get? 1 = some none
    ∧ get_geojson_by_bounds (load_geojson_parts loadResults) 90 (-90) 180 (-180) 15
        = get_geojson_by_bounds ((load_geojson_parts loadResults).eraseIdx 1)
            90 (-90) 180 (-180) 15 :=
  ⟨(C6_load_failure_isolated loadResults 1 "missing file" rfl).1,
   (C6_load_failure_isolated loadResults 1 "missing file" rfl).2.2
     90 (-90) 180 (-180) 15⟩

/-- C7: when no loaded feature intersects the bbox (including when all
partitions are absent), the query returns count 0, an empty feature
sequence and the echoed bounds — it is total, never an error. -/
theorem C7_no_match_empty_result (store : List (Option GeoDataFrame))
    (north south east west : ℚ) (zoom : Int)
    (hdis : ∀ g ∈ store.filterMap id, ∀ f ∈ g.features,
        featIntersects f (mkBox west south east north) = false) :
    (get_geojson_by_bounds store north south east west zoom).count = 0
    ∧ (get_geojson_by_bounds store north south east west zoom).features = []
    ∧ (get_geojson_by_bounds store north south east west zoom).north = north
    ∧ (get_geojson_by_bounds store north south east west zoom).south = south
    ∧ (get_geojson_by_bounds store north south east west zoom).east = east
    ∧ (get_geojson_by_bounds store north south east west zoom).west = west := by
  have h := query_flatten_of_disjoint north south east west zoom store hdis
  refine ⟨?_, ?_, query_echo store north south east west zoom⟩
  · rw [query_count_eq, h]
    rfl
  · rw [query_features_eq, h]

/-- C7 witness: a unit box far away from every feature. -/
theorem C7_witness :
    (get_geojson_by_bounds farStore (-1) (-2) (-1) (-2) 12).count = 0
    ∧ (get_geojson_by_bounds farStore (-1) (-2) (-1) (-2) 12).features = [] :=
  ⟨(C7_no_match_empty_result farStore (-1) (-2) (-1) (-2) 12 (by decide)).1,
   (C7_no_match_empty_result farStore (-1) (-2) (-1) (-2) 12 (by decide)).2.1⟩

/-- C8 counterexample: a store whose only partition loaded successfully
but is empty.  Partitions ARE loaded, yet `get_info` returns the no-data
sentinel instead of a numeric summary (source line 110 filters out empty
frames before the emptiness test on line 111). -/
theorem C8_counterexample :
    (emptyPartStore.filterMap id).length = 1
    ∧ get_info emptyPartStore = InfoResult.noData := by
  decide

/-- C8 (amended): summarize returns the no-data sentinel when no loaded
partition contains any feature; otherwise it returns the total feature
count over all loaded partitions, the union bounding extent (min/max
attained over all loaded features), and the union of the column-name
sets of the non-empty loaded partitions, with no spatial filter. -/
theorem C8_summary_characterization (store : List (Option GeoDataFrame)) :
    (loadedParts store = [] → get_info store = InfoResult.noData)
    ∧ (∀ g0 gs, loadedParts store = g0 :: gs →
        get_info store = InfoResult.info
            (((store.filterMap id).map (fun g => g.features.length)).sum)
            (total_bounds (((store.filterMap id).map GeoDataFrame.features).flatten))
            (unionColumns ((loadedParts store).map GeoDataFrame.columns))
        ∧ (∀ c, c ∈ unionColumns ((loadedParts store).map GeoDataFrame.columns)
            ↔ ∃ g ∈ loadedParts store, c ∈ g.columns)
        ∧ (∀ b, total_bounds
              (((store.filterMap id).map GeoDataFrame.features).flatten) = some b →
            minMaxSpec b (((store.filterMap id).map GeoDataFrame.features).flatten))
        ∧ total_bounds (((store.filterMap id).map GeoDataFrame.features).flatten)
            ≠ none) := by
  constructor
  · intro h
    unfold get_info
    rw [h]
  · intro g0 gs h
    have hinfo : get_info store = InfoResult.info
        ((((loadedParts store).map GeoDataFrame.features).flatten).length)
        (total_bounds (((loadedParts store).map GeoDataFrame.features).flatten))
        (unionColumns ((loadedParts store).map GeoDataFrame.columns)) := by
      unfold get_info
      rw [h]
    refine ⟨?_, ?_, ?_, ?_⟩
    · rw [hinfo, loadedParts_count store, loadedParts_flatten store]
    · intro c
      rw [unionColumns_mem]
      constructor
      · rintro ⟨cols, hcols, hc⟩
        rcases List.mem_map.mp hcols with ⟨g, hg, rfl⟩
        exact ⟨g, hg, hc⟩
      · rintro ⟨g, hg, hc⟩
        exact ⟨g.columns, List.mem_map.mpr ⟨g, hg, rfl⟩, hc⟩
    · intro b hb
      exact total_bounds_minMax _ b hb
    · rw [← loadedParts_flatten, h]
      simp only [List.map_cons, List.flatten_cons]
      apply total_bounds_ne_none
      intro heq
      have hg0 : g0.features = [] := (List.append_eq_nil.mp heq).1
      exact mem_loadedParts_nonempty store g0
        (by rw [h]; exact List.mem_cons_self g0 gs) hg0

/-- C8 witness: the amended summary evaluated on a store with two
non-empty partitions and one absent slot. -/
theorem C8_witness :
    get_info mixedStore
      = InfoResult.info 3 (some (0, 0, 3, 4)) ["geometry", "density", "name"] :=
  (((C8_summary_characterization mixedStore).2 gdfA [gdfB] (by decide)).1).trans
    (by decide)

/-- C9: in every query response the reported count equals the length of
the returned feature sequence. -/
theorem C9_count_matches_features (store : List (Option GeoDataFrame))
    (north south east west : ℚ) (zoom : Int) :
    (get_geojson_by_bounds store north south east west zoom).count
      = (get_geojson_by_bounds store north south east west zoom).features.length := by
  rw [query_count_eq, query_features_eq]

/-- C10: decimation is the identity whenever the stride collapses to 1:
below zoom 10 for fewer than 200 features, and in the 10 ≤ zoom < 13
bracket for fewer than 1000 features. -/
theorem C10_identity_below_double_target (l : List Feature) (zoom : Int) :
    (zoom < 10 → l.length < 200 → decimate zoom l = l)
    ∧ (10 ≤ zoom → zoom < 13 → l.length < 1000 → decimate zoom l = l) := by
  constructor
  · intro hz hn
    unfold decimate
    rw [if_pos hz]
    have hk : max 1 (l.length / 100) = 1 := by omega
    rw [hk, stride_one]
  · intro h1 h2 hn
    unfold decimate
    rw [if_neg (by omega), if_pos h2]
    have hk : max 1 (l.length / 500) = 1 := by omega
    rw [hk, stride_one]

/-- C10 witness: 199 features at zoom 5 pass through unchanged. -/
theorem C10_witness :
    (5 : Int) < 10
    ∧ (strideList.take 199).length < 200
    ∧ decimate 5 (strideList.take 199) = strideList.take 199 :=
  ⟨by decide, by decide,
   (C10_identity_below_double_target (strideList.take 199) 5).1 (by decide) (by decide)⟩

end Heatmap
